import Mathlib

/-!
Verification of the conversation-state and protocol-reconciliation layer of
the chatgpt-cli client (package `client`, plus the history manager).  The
definitions below are shallow embeddings of the Go source: `GetCapabilities`,
`countTokens`, `calculateEffectiveContextWindow`, `truncateHistory`,
`initHistory`, `updateHistory`, the classic/alternate branches of `Query`,
`createCompletionsRequest` / `createResponsesRequest`, and the history-write
tails of `Transcribe` and `InjectMCPContext`.  Go runtime panics (failed type
assertions) are modelled as `Except.error`; machine integers appearing here
are non-negative counts and are modelled as `Nat`.
-/

/-! ## String helpers mirroring the Go standard library -/

/-- The first list is a prefix of the second (mirrors the test
`strings.HasPrefix` performs on the underlying bytes; on our inputs,
runewise and bytewise agreement coincide). -/
def listStarts : List Char → List Char → Bool
  | [], _ => true
  | _ :: _, [] => false
  | a :: as, b :: bs => a == b && listStarts as bs

/-- The first list occurs as a contiguous sublist of the second
(mirrors `strings.Contains`). -/
def hasSubList (pat : List Char) : List Char → Bool
  | [] => listStarts pat []
  | c :: rest => listStarts pat (c :: rest) || hasSubList pat rest

/-- Go `strings.Contains(s, pat)`. -/
def strContains (s pat : String) : Bool := hasSubList pat.data s.data

/-- Go `strings.HasPrefix(s, pat)`. -/
def strStarts (s pat : String) : Bool := listStarts pat.data s.data

/-- Helper for `strFields`: walks the characters, accumulating the current
word in reverse; whitespace flushes the accumulated word. -/
def fieldsAux : List Char → List Char → List String
  | [], acc => if acc.isEmpty then [] else [String.mk acc.reverse]
  | c :: cs, acc =>
    if c.isWhitespace then
      if acc.isEmpty then fieldsAux cs []
      else String.mk acc.reverse :: fieldsAux cs []
    else fieldsAux cs (c :: acc)

/-- Go `strings.Fields(s)`: the maximal runs of non-whitespace characters. -/
def strFields (s : String) : List String := fieldsAux s.data []

/-! ## Capability resolver (`GetCapabilities`, src/unnamed/part_000:1125) -/

/-- Pattern constants from the `client` package. -/
def SearchModelPattern : String := "-search"

def o1Prefix : String := "o1"

def o1ProPattern : String := "o1-pro"

def gpt5Pattern : String := "gpt-5"

structure ModelCapabilities where
  supportsTemperature : Bool
  supportsStreaming : Bool
  usesResponsesAPI : Bool
  omitFirstSystemMsg : Bool
deriving DecidableEq, Repr

/-- `GetCapabilities` (src/unnamed/part_000:1125-1132): pure function from a
model identifier string to the four capability flags. -/
def GetCapabilities (model : String) : ModelCapabilities :=
  { supportsTemperature := !(strContains model SearchModelPattern)
    supportsStreaming := !(strContains model o1ProPattern)
    usesResponsesAPI := strContains model o1ProPattern || strContains model gpt5Pattern
    omitFirstSystemMsg := strStarts model o1Prefix && !(strContains model o1ProPattern) }

/-- Claim C2: for every model identifier `m`, `GetCapabilities m` is the
stated pure function of the four string tests, and the sampled table rows
hold: "gpt-4o-search-preview" has supportsTemperature = false; "o1-pro" uses
the responses API and does not support streaming; "gpt-5-x" uses the
responses API; "o1-mini" omits the first system message and does not use the
responses API. -/
theorem c2_capabilities :
    (∀ m : String, GetCapabilities m =
      { supportsTemperature := !(strContains m "-search")
        supportsStreaming := !(strContains m "o1-pro")
        usesResponsesAPI := strContains m "o1-pro" || strContains m "gpt-5"
        omitFirstSystemMsg := strStarts m "o1" && !(strContains m "o1-pro") }) ∧
    (GetCapabilities "gpt-4o-search-preview").supportsTemperature = false ∧
    (GetCapabilities "o1-pro").usesResponsesAPI = true ∧
    (GetCapabilities "o1-pro").supportsStreaming = false ∧
    (GetCapabilities "gpt-5-x").usesResponsesAPI = true ∧
    (GetCapabilities "o1-mini").omitFirstSystemMsg = true ∧
    (GetCapabilities "o1-mini").usesResponsesAPI = false := by
  refine ⟨fun m => rfl, ?_, ?_, ?_, ?_, ?_, ?_⟩ <;> decide

/-! ## Conversation history data model (`api.Message`, `history.History`) -/

/-- The Go `Content interface{}` field of `api.Message`: a plain string, a
number (as produced by JSON decoding, e.g. `123`), or a media-content list
(the shape `[]api.ImageContent` / `[]api.AudioContent` carries). -/
inductive MessageContent where
  | text (s : String)
  | num (n : Int)
  | mediaList (items : List String)
deriving DecidableEq, Repr

/-- Whether the content is a plain string (Go type assertion `.(string)`
succeeds exactly on this case). -/
def MessageContent.isText : MessageContent → Bool
  | .text _ => true
  | _ => false

/-- `api.Message`. -/
structure Message where
  role : String
  content : MessageContent
  name : String := ""
deriving DecidableEq, Repr

/-- `history.History`: a message plus a timestamp (modelled as `Nat`). -/
structure HistoryEntry where
  message : Message
  timestamp : Nat
deriving DecidableEq, Repr

def SystemRole : String := "system"

def UserRole : String := "user"

def AssistantRole : String := "assistant"

def FunctionRole : String := "function"

def MaxTokenBufferPercentage : Nat := 20

/-! ## Token counting and truncation (src/unnamed/part_000:892-913, 1172-1199) -/

/-- Per-message approximate cost from `countTokens`: whitespace-split words,
`(sum of rune counts of the words + word count) / 2` with integer division. -/
def messageCost (s : String) : Nat :=
  let ws := strFields s
  let charCount := (ws.map String.length).sum
  (charCount + ws.length) / 2

/-- The cost a plain-text entry contributes; only meaningful on text
content (non-text content makes `countTokens` fail, see below). -/
def turnCost (e : HistoryEntry) : Nat :=
  match e.message.content with
  | .text s => messageCost s
  | _ => 0

/-- `countTokens` (src/unnamed/part_000:1178-1199): total cost plus the
per-entry rolling cost list.  The Go code evaluates
`entry.Content.(string)`, a single-valued type assertion that panics on
non-string content; the panic is modelled as `Except.error`. -/
def countTokens : List HistoryEntry → Except String (Nat × List Nat)
  | [] => .ok (0, [])
  | e :: rest =>
    match e.message.content with
    | .text s =>
      match countTokens rest with
      | .error msg => .error msg
      | .ok (t, r) => .ok (messageCost s + t, messageCost s :: r)
    | _ => .error "interface conversion: content is not a string"

/-- `calculateEffectiveContextWindow` (src/unnamed/part_000:1172-1176). -/
def calculateEffectiveContextWindow (window bufferPercentage : Nat) : Nat :=
  (window * (100 - bufferPercentage)) / 100

/-- The scan loop of `truncateHistory` (src/unnamed/part_000:904-910):
accumulate costs from index 1 until the running total first exceeds `diff`;
return that index, or the initial value 0 when the total never exceeds
`diff`.  Called with the rolling list minus its head, `total = 0`, `i = 1`. -/
def findCut : List Nat → Nat → Nat → Nat → Nat
  | [], _, _, _ => 0
  | c :: rest, diff, total, i =>
    if total + c > diff then i else findCut rest diff (total + c) (i + 1)

/-- `truncateHistory` (src/unnamed/part_000:892-913).  The final Go line is
`c.History = append(c.History[:1], c.History[index+1:]...)`, i.e. the result
is `take 1 ++ drop (index + 1)`. -/
def truncateHistory (contextWindow : Nat) (entries : List HistoryEntry) :
    Except String (List HistoryEntry) :=
  match countTokens entries with
  | .error e => .error e
  | .ok (tokens, rolling) =>
    let eff := calculateEffectiveContextWindow contextWindow MaxTokenBufferPercentage
    if tokens ≤ eff then .ok entries
    else
      let diff := tokens - eff
      let cut := findCut (rolling.drop 1) diff 0 1
      .ok (entries.take 1 ++ entries.drop (cut + 1))

/-- Overwrite the head entry's content (Go `c.History[0].Content = ...`). -/
def setHeadContent (h : List HistoryEntry) (role : String) : List HistoryEntry :=
  match h with
  | [] => []
  | e :: rest => { e with message := { e.message with content := .text role } } :: rest

/-- `initHistory` (src/unnamed/part_000:825-844).  `current` is the
in-memory history, `stored` the list the history store returns on `Read`
(the Go code discards the read error and keeps the returned slice),
`role` the configured persona text. -/
def initHistory (current stored : List HistoryEntry) (omitHistory : Bool)
    (role : String) (now : Nat) : List HistoryEntry :=
  if current ≠ [] then current
  else
    let loaded := if omitHistory then [] else stored
    let base :=
      if loaded = [] then [{ message := { role := SystemRole, content := .text "" }, timestamp := now }]
      else loaded
    setHeadContent base role

/-! ## Lemmas about `countTokens` and `truncateHistory` -/

/-- On an all-text history, `countTokens` succeeds and returns the sum of
the per-turn costs together with the per-turn cost list in order. -/
theorem countTokens_allText (h : List HistoryEntry)
    (hall : ∀ e ∈ h, (e.message.content).isText = true) :
    countTokens h = .ok ((h.map turnCost).sum, h.map turnCost) := by
  induction h with
  | nil => rfl
  | cons e rest ih =>
    have he : (e.message.content).isText = true := hall e (List.mem_cons_self e rest)
    have hrest : ∀ x ∈ rest, (x.message.content).isText = true :=
      fun x hx => hall x (List.mem_cons_of_mem e hx)
    cases hc : e.message.content with
    | text s =>
      simp only [countTokens, hc, ih hrest, List.map_cons, List.sum_cons, turnCost]
    | num n => simp [MessageContent.isText, hc] at he
    | mediaList items => simp [MessageContent.isText, hc] at he

/-- A history containing a non-text entry makes `countTokens` fail with the
type-assertion error. -/
theorem countTokens_error (h : List HistoryEntry)
    (hbad : ∃ e ∈ h, (e.message.content).isText = false) :
    countTokens h = .error "interface conversion: content is not a string" := by
  induction h with
  | nil => simp at hbad
  | cons e rest ih =>
    obtain ⟨x, hx, hxf⟩ := hbad
    cases hc : e.message.content with
    | text s =>
      have hxr : x ∈ rest := by
        rcases List.mem_cons.mp hx with hxe | hxr
        · subst hxe; simp [MessageContent.isText, hc] at hxf
        · exact hxr
      have := ih ⟨x, hxr, hxf⟩
      simp only [countTokens, hc, this]
    | num n => simp only [countTokens, hc]
    | mediaList items => simp only [countTokens, hc]

/-- If the accumulated total can never exceed `diff`, the scan returns the
initial cut index 0. -/
theorem findCut_never (costs : List Nat) (diff : Nat) :
    ∀ total i, total + costs.sum ≤ diff → findCut costs diff total i = 0 := by
  induction costs with
  | nil => intro total i _; rfl
  | cons c rest ih =>
    intro total i hle
    have hc : ¬ total + c > diff := by
      simp only [List.sum_cons] at hle
      omega
    have hrest : (total + c) + rest.sum ≤ diff := by
      simp only [List.sum_cons] at hle
      omega
    simp only [findCut, if_neg hc, ih (total + c) (i + 1) hrest]

/-- Every successful truncation result has the shape
`take 1 ++ drop (k + 1)` of the input. -/
theorem truncateHistory_shape (w : Nat) (h h' : List HistoryEntry)
    (hok : truncateHistory w h = .ok h') :
    ∃ k, h' = h.take 1 ++ h.drop (k + 1) := by
  unfold truncateHistory at hok
  cases hct : countTokens h with
  | error e => rw [hct] at hok; exact absurd hok (by simp)
  | ok p =>
    rw [hct] at hok
    obtain ⟨tokens, rolling⟩ := p
    by_cases hle : tokens ≤ calculateEffectiveContextWindow w MaxTokenBufferPercentage
    · simp only [hle, if_true] at hok
      refine ⟨0, ?_⟩
      have := Except.ok.inj hok
      rw [← this, List.take_append_drop]
    · simp only [hle, if_false] at hok
      exact ⟨_, (Except.ok.inj hok).symm⟩

/-- When the total cost exceeds the effective window, `truncateHistory`
removes `[1, cut]` where `cut` is the scan result (initially 0). -/
theorem truncateHistory_over (w : Nat) (h : List HistoryEntry) (T : Nat) (rolling : List Nat)
    (hct : countTokens h = .ok (T, rolling))
    (hgt : calculateEffectiveContextWindow w MaxTokenBufferPercentage < T) :
    truncateHistory w h = .ok (h.take 1 ++
      h.drop (findCut (rolling.drop 1)
        (T - calculateEffectiveContextWindow w MaxTokenBufferPercentage) 0 1 + 1)) := by
  unfold truncateHistory
  rw [hct]
  dsimp only
  rw [if_neg (Nat.not_le.mpr hgt)]

/-- Claim C1: on an all-text history, when the total cost `T` exceeds
`effectiveBudget = w * (100 - 20) / 100` and the overflow `T - effectiveBudget`
lies strictly between the cost of turn 1 and the sum of the costs of turns 1
and 2, the truncation pass removes exactly turns 1 and 2, keeping turn 0 and
all turns from index 3 on in order. -/
theorem c1_truncation_evicts_turns_one_two (w : Nat) (e0 e1 e2 : HistoryEntry)
    (rest : List HistoryEntry)
    (hall : ∀ e ∈ e0 :: e1 :: e2 :: rest, (e.message.content).isText = true)
    (heff : calculateEffectiveContextWindow w MaxTokenBufferPercentage <
      ((e0 :: e1 :: e2 :: rest).map turnCost).sum)
    (hlo : turnCost e1 < ((e0 :: e1 :: e2 :: rest).map turnCost).sum -
      calculateEffectiveContextWindow w MaxTokenBufferPercentage)
    (hhi : ((e0 :: e1 :: e2 :: rest).map turnCost).sum -
      calculateEffectiveContextWindow w MaxTokenBufferPercentage <
      turnCost e1 + turnCost e2) :
    truncateHistory w (e0 :: e1 :: e2 :: rest) = .ok (e0 :: rest) := by
  have hsh := truncateHistory_over w _ _ _ (countTokens_allText _ hall) heff
  rw [hsh]
  have hcut : findCut ((((e0 :: e1 :: e2 :: rest).map turnCost)).drop 1)
      (((e0 :: e1 :: e2 :: rest).map turnCost).sum -
        calculateEffectiveContextWindow w MaxTokenBufferPercentage) 0 1 = 2 := by
    simp only [List.map_cons, List.drop_succ_cons, List.drop_zero]
    have h1 : ¬ 0 + turnCost e1 >
        ((e0 :: e1 :: e2 :: rest).map turnCost).sum -
          calculateEffectiveContextWindow w MaxTokenBufferPercentage := by
      simp only [List.map_cons] at hlo ⊢
      omega
    have h2 : 0 + turnCost e1 + turnCost e2 >
        ((e0 :: e1 :: e2 :: rest).map turnCost).sum -
          calculateEffectiveContextWindow w MaxTokenBufferPercentage := by
      simp only [List.map_cons] at hhi ⊢
      omega
    simp only [List.map_cons] at h1 h2
    rw [findCut, if_neg h1, findCut, if_pos h2]
  rw [hcut]
  simp

/-- Witness for C1 at a concrete history: window 10, anchor cost 1,
non-anchor costs 4, 4, 4; total 13, budget 8, overflow 5 strictly between
4 and 8, so turns 1 and 2 are evicted. -/
def w1e0 : HistoryEntry := ⟨⟨SystemRole, .text "x", ""⟩, 0⟩

def w1e1 : HistoryEntry := ⟨⟨UserRole, .text "aa bb cc", ""⟩, 1⟩

def w1e2 : HistoryEntry := ⟨⟨AssistantRole, .text "dd ee ff", ""⟩, 2⟩

def w1e3 : HistoryEntry := ⟨⟨UserRole, .text "gg hh ii", ""⟩, 3⟩

/-- Witness for claim C1: the theorem applied at a concrete four-turn
history evicts exactly turns 1 and 2. -/
theorem c1_witness : truncateHistory 10 [w1e0, w1e1, w1e2, w1e3] = .ok [w1e0, w1e3] :=
  c1_truncation_evicts_turns_one_two 10 w1e0 w1e1 w1e2 [w1e3]
    (by decide) (by decide) (by decide) (by decide)

/-- Claim C5 (amended): when the overflow is at least the sum of all
non-anchor costs, the scan never fires, the cut index stays at its initial
value 0, and the removal `take 1 ++ drop 1` removes nothing at all — the
history is returned unchanged (the claim's "deleting only index 1" does not
happen); no post-truncation re-check against the budget occurs. -/
theorem c5_amended_degenerate_noop (w : Nat) (e0 : HistoryEntry)
    (rest : List HistoryEntry)
    (hall : ∀ e ∈ e0 :: rest, (e.message.content).isText = true)
    (heff : calculateEffectiveContextWindow w MaxTokenBufferPercentage <
      ((e0 :: rest).map turnCost).sum)
    (hge : (rest.map turnCost).sum ≤ ((e0 :: rest).map turnCost).sum -
      calculateEffectiveContextWindow w MaxTokenBufferPercentage) :
    truncateHistory w (e0 :: rest) = .ok (e0 :: rest) := by
  have hsh := truncateHistory_over w _ _ _ (countTokens_allText _ hall) heff
  rw [hsh]
  have hcut : findCut ((((e0 :: rest).map turnCost)).drop 1)
      (((e0 :: rest).map turnCost).sum -
        calculateEffectiveContextWindow w MaxTokenBufferPercentage) 0 1 = 0 := by
    simp only [List.map_cons, List.drop_succ_cons, List.drop_zero]
    exact findCut_never _ _ 0 1
      (by simp only [List.map_cons, List.sum_cons] at hge ⊢; omega)
  rw [hcut]
  simp

def c5e0 : HistoryEntry := ⟨⟨SystemRole, .text "a", ""⟩, 0⟩

def c5e1 : HistoryEntry := ⟨⟨UserRole, .text "b", ""⟩, 1⟩

def c5e2 : HistoryEntry := ⟨⟨AssistantRole, .text "c", ""⟩, 2⟩

/-- Counterexample to claim C5 as stated: with context window 0 the budget
is 0, overflow 3 is at least the non-anchor cost sum 2, yet the truncation
pass removes nothing — all three turns survive, in particular the turn at
index 1 is NOT deleted. -/
theorem c5_counterexample :
    truncateHistory 0 [c5e0, c5e1, c5e2] = .ok [c5e0, c5e1, c5e2] ∧
    [c5e0, c5e1, c5e2] ≠ [c5e0, c5e2] := by
  exact ⟨by rfl, by decide⟩

/-- Witness for the amended claim C5 at the same concrete history. -/
theorem c5_witness : truncateHistory 0 [c5e0, c5e1, c5e2] = .ok [c5e0, c5e1, c5e2] :=
  c5_amended_degenerate_noop 0 c5e0 [c5e1, c5e2] (by decide) (by decide) (by decide)

/-- Claim C9: every completed truncation pass keeps the anchor turn at
index 0 and returns a subsequence of the input (relative order preserved);
and `initHistory` on an empty in-memory history always overwrites the
anchor's content with the persona text — when stored turns are loaded, the
length stays that of the stored list (no extra system turn is appended). -/
theorem c9_anchor_invariant :
    (∀ (w : Nat) (e0 : HistoryEntry) (rest h' : List HistoryEntry),
      truncateHistory w (e0 :: rest) = .ok h' →
      h'.head? = some e0 ∧ List.Sublist h' (e0 :: rest)) ∧
    (∀ (stored : List HistoryEntry) (omitHistory : Bool) (role : String) (now : Nat),
      ((initHistory [] stored omitHistory role now).head?.map
        fun e => e.message.content) = some (.text role) ∧
      (initHistory [] stored omitHistory role now).length =
        (if omitHistory = true ∨ stored = [] then 1 else stored.length)) := by
  constructor
  · intro w e0 rest h' hok
    obtain ⟨k, hk⟩ := truncateHistory_shape w _ _ hok
    subst hk
    constructor
    · simp
    · simp only [List.take_cons, List.take_zero, List.drop_succ_cons, List.cons_append,
        List.nil_append]
      exact List.Sublist.cons₂ e0 (List.drop_sublist k rest)
  · intro stored omitHistory role now
    cases omitHistory with
    | true => simp [initHistory, setHeadContent]
    | false =>
      cases stored with
      | nil => simp [initHistory, setHeadContent]
      | cons s srest => simp [initHistory, setHeadContent]

def c9e : HistoryEntry := ⟨⟨SystemRole, .text "hi", ""⟩, 0⟩

/-- Witness for claim C9: the truncation half applied at a concrete
one-turn history. -/
theorem c9_witness : [c9e].head? = some c9e ∧ List.Sublist [c9e] [c9e] :=
  c9_anchor_invariant.1 10 c9e [] [c9e] (by rfl)

/-- Claim C10 (amended): the truncation cost computation is total only over
all-text histories; a turn whose content is not plain text causes the Go
string type assertion to fail (runtime panic), so the truncation pass fails
instead of completing normally. -/
theorem c10_amended_totality (w : Nat) (h : List HistoryEntry) :
    ((∀ e ∈ h, (e.message.content).isText = true) →
      ∃ h', truncateHistory w h = .ok h') ∧
    ((∃ e ∈ h, (e.message.content).isText = false) →
      truncateHistory w h = .error "interface conversion: content is not a string") := by
  constructor
  · intro hall
    unfold truncateHistory
    rw [countTokens_allText h hall]
    dsimp only
    split
    · exact ⟨_, rfl⟩
    · exact ⟨_, rfl⟩
  · intro hbad
    unfold truncateHistory
    rw [countTokens_error h hbad]

def c10sys : HistoryEntry := ⟨⟨SystemRole, .text "you are helpful", ""⟩, 0⟩

def c10media : HistoryEntry := ⟨⟨UserRole, .mediaList ["image_url"], ""⟩, 1⟩

/-- Counterexample to claim C10 as stated: a history with one media-content
turn does not complete the truncation pass; the cost computation fails with
the modelled type-assertion panic. -/
theorem c10_counterexample :
    truncateHistory 100 [c10sys, c10media] =
      .error "interface conversion: content is not a string" := by
  rfl

/-- Witness for the amended claim C10: totality on an all-text history and
failure once a media turn is present. -/
theorem c10_witness :
    (∃ h', truncateHistory 5 [c10sys] = .ok h') ∧
    truncateHistory 5 [c10sys, c10media] =
      .error "interface conversion: content is not a string" :=
  ⟨(c10_amended_totality 5 [c10sys]).1 (by decide),
   (c10_amended_totality 5 [c10sys, c10media]).2 (by decide)⟩

/-! ## Batch response decoding (`Query`, src/unnamed/part_000:284-324) -/

/-- `api.TokenUsage` / `api.Usage`: only the total-tokens field matters here. -/
structure TokenUsage where
  totalTokens : Nat
deriving DecidableEq, Repr

/-- One entry of an alternate-API output block's content list. -/
structure OutputContent where
  type : String
  text : String
deriving DecidableEq, Repr

/-- One entry of the alternate-API (`api.ResponsesResponse`) output list. -/
structure OutputBlock where
  type : String
  content : List OutputContent
deriving DecidableEq, Repr

/-- `api.ResponsesResponse`. -/
structure ResponsesResponse where
  output : List OutputBlock
  usage : TokenUsage
deriving DecidableEq, Repr

/-- `api.Choice` of `api.CompletionsResponse`. -/
structure Choice where
  message : Message
deriving DecidableEq, Repr

/-- `api.CompletionsResponse`. -/
structure CompletionsResponse where
  choices : List Choice
  usage : TokenUsage
deriving DecidableEq, Repr

/-- Inner loop of the alternate branch (src/unnamed/part_000:297-302): the
first content entry of type "output_text" in one output block; the Go
`break` leaves this inner loop after the first hit. -/
def firstOutputText : List OutputContent → Option String
  | [] => none
  | c :: rest => if c.type = "output_text" then some c.text else firstOutputText rest

/-- Outer loop of the alternate branch (src/unnamed/part_000:293-303): skip
blocks whose type is not "message"; a block that has an output_text entry
OVERWRITES the accumulated response (the Go `break` only exits the inner
loop, so the outer scan continues). -/
def scanOutputs : List OutputBlock → String → String
  | [], response => response
  | o :: rest, response =>
    if o.type = "message" then
      match firstOutputText o.content with
      | some t => scanOutputs rest t
      | none => scanOutputs rest response
    else scanOutputs rest response

/-- The alternate (responses-API) branch of `Query`
(src/unnamed/part_000:286-307): returns the scanned text, or the error
"no response returned" when the accumulated response is empty; usage
total-tokens is read from the envelope in every case. -/
def queryAlternate (res : ResponsesResponse) : Except String String × Nat :=
  let tokensUsed := res.usage.totalTokens
  let response := scanOutputs res.output ""
  if response = "" then (.error "no response returned", tokensUsed)
  else (.ok response, tokensUsed)

/-- The classic (completions) branch of `Query`
(src/unnamed/part_000:308-324): empty choices fail with "no responses
returned"; a first choice whose content is not a plain string fails with
"response cannot be converted to a string"; usage total-tokens is read from
the envelope in every case. -/
def queryClassic (res : CompletionsResponse) : Except String String × Nat :=
  let tokensUsed := res.usage.totalTokens
  match res.choices with
  | [] => (.error "no responses returned", tokensUsed)
  | ch :: _ =>
    match ch.message.content with
    | .text s => (.ok s, tokensUsed)
    | _ => (.error "response cannot be converted to a string", tokensUsed)

/-- The spec's claimed selection rule for the alternate branch: the FIRST
output_text entry in list order over message blocks.  (Stated from the
spec's words, for comparison with the code's behaviour.) -/
def specFirstMatch : List OutputBlock → Option String
  | [] => none
  | o :: rest =>
    if o.type = "message" then
      match firstOutputText o.content with
      | some t => some t
      | none => specFirstMatch rest
    else specFirstMatch rest

/-- The code's actual selection rule, stated declaratively: the first
output_text entry of the LAST message block that contains one. -/
def lastMatchText : List OutputBlock → Option String
  | [] => none
  | o :: rest =>
    match lastMatchText rest with
    | some t => some t
    | none => if o.type = "message" then firstOutputText o.content else none

/-- The scanning loop computes exactly `lastMatchText`, with the accumulator
as default. -/
theorem scanOutputs_getD (outs : List OutputBlock) :
    ∀ acc, scanOutputs outs acc = (lastMatchText outs).getD acc := by
  induction outs with
  | nil => intro acc; rfl
  | cons o rest ih =>
    intro acc
    by_cases hm : o.type = "message"
    · cases hft : firstOutputText o.content with
      | some t =>
        simp only [scanOutputs, lastMatchText, hm, hft, if_true, ih t]
        cases hlm : lastMatchText rest <;> simp [hlm]
      | none =>
        simp only [scanOutputs, lastMatchText, hm, hft, if_true, ih acc]
        cases hlm : lastMatchText rest <;> simp [hlm]
    · simp only [scanOutputs, lastMatchText, hm, if_false, ih acc]
      cases hlm : lastMatchText rest <;> simp [hlm]

/-- Claim C3 (amended): the alternate branch's result is the first
output_text entry of the LAST message block containing one (later message
blocks overwrite earlier ones — the Go break only leaves the inner loop);
when that yields the empty string — in particular when no output_text entry
exists anywhere — `Query` fails with "no response returned"; the usage
total-tokens value is read from the envelope and returned in every case. -/
theorem c3_amended_alternate_decode (res : ResponsesResponse) :
    queryAlternate res =
      (match lastMatchText res.output with
        | some t => if t = "" then .error "no response returned" else .ok t
        | none => .error "no response returned",
       res.usage.totalTokens) := by
  unfold queryAlternate
  rw [scanOutputs_getD res.output ""]
  cases hlm : lastMatchText res.output with
  | none => simp
  | some t => by_cases ht : t = "" <;> simp [ht]

def c3BlockA : OutputBlock := ⟨"message", [⟨"output_text", "a"⟩]⟩

def c3BlockB : OutputBlock := ⟨"message", [⟨"output_text", "b"⟩]⟩

def c3Envelope : ResponsesResponse := ⟨[c3BlockA, c3BlockB], ⟨7⟩⟩

/-- Counterexample to claim C3 as stated: with two message blocks each
holding an output_text entry, the first match in list order is "a", but the
code returns "b" — the later block overwrites the earlier one. -/
theorem c3_counterexample :
    specFirstMatch c3Envelope.output = some "a" ∧
    queryAlternate c3Envelope = (.ok "b", 7) ∧
    ("b" : String) ≠ "a" := by
  refine ⟨by rfl, by rfl, by decide⟩

/-- Claim C4: the classic branch fails with "no responses returned" on an
empty choices list and with "response cannot be converted to a string" when
the first choice's content is not a plain string; in both cases the usage
total-tokens value read from the envelope is returned alongside the error. -/
theorem c4_classic_decode_errors (res : CompletionsResponse) :
    (res.choices = [] →
      queryClassic res = (.error "no responses returned", res.usage.totalTokens)) ∧
    (∀ ch rest, res.choices = ch :: rest → (ch.message.content).isText = false →
      queryClassic res =
        (.error "response cannot be converted to a string", res.usage.totalTokens)) := by
  constructor
  · intro hnil
    unfold queryClassic
    rw [hnil]
  · intro ch rest hcons hnt
    unfold queryClassic
    rw [hcons]
    cases hc : ch.message.content with
    | text s => simp [MessageContent.isText, hc] at hnt
    | num n => dsimp only; rw [hc]
    | mediaList items => dsimp only; rw [hc]

def c4Empty : CompletionsResponse := ⟨[], ⟨5⟩⟩

def c4NumChoice : CompletionsResponse := ⟨[⟨⟨AssistantRole, .num 123, ""⟩⟩], ⟨7⟩⟩

/-- Witness for claim C4: both error paths at concrete envelopes (the
number content 123 mirrors the unit test's non-string choice). -/
theorem c4_witness :
    queryClassic c4Empty = (.error "no responses returned", 5) ∧
    queryClassic c4NumChoice = (.error "response cannot be converted to a string", 7) :=
  ⟨(c4_classic_decode_errors c4Empty).1 rfl,
   (c4_classic_decode_errors c4NumChoice).2 ⟨⟨AssistantRole, .num 123, ""⟩⟩ [] rfl (by decide)⟩

/-! ## Request assembly (src/unnamed/part_000:666-747) -/

/-- The configuration fields the request assembler consumes.  Temperature
and top-p are Go floats used only as opaque carried values here, so they are
modelled as integers. -/
structure Config where
  model : String
  maxTokens : Nat
  temperature : Int
  topP : Int
  frequencyPenalty : Int
  presencePenalty : Int
  seed : Nat
  effort : String
  contextWindow : Nat
  omitHistory : Bool
  role : String
deriving Repr

/-- `api.CompletionsRequest` as assembled by `createCompletionsRequest`:
temperature and top-p are set only when the model supports temperature
(Go leaves them at their zero value otherwise, and their `omitempty` JSON
tags drop them from the body). -/
structure CompletionsRequest where
  messages : List Message
  model : String
  maxTokens : Nat
  frequencyPenalty : Int
  presencePenalty : Int
  seed : Nat
  stream : Bool
  temperature : Option Int
  topP : Option Int
deriving Repr

/-- `api.ResponsesRequest` as assembled by `createResponsesRequest`:
temperature and top-p are unconditional fields. -/
structure ResponsesRequest where
  model : String
  input : List Message
  maxOutputTokens : Nat
  reasoningEffort : String
  stream : Bool
  temperature : Int
  topP : Int
deriving Repr

/-- `createCompletionsRequest` (src/unnamed/part_000:684-716): drops the
first history turn when `omitFirstSystemMsg`, appends at most one
out-of-band media message, and sets temperature and top-p only when
`supportsTemperature`. -/
def createCompletionsRequest (cfg : Config) (hist : List HistoryEntry)
    (attachment : Option Message) (stream : Bool) : CompletionsRequest :=
  let caps := GetCapabilities cfg.model
  let messages := (if caps.omitFirstSystemMsg then hist.drop 1 else hist).map
    fun e => e.message
  let messages := messages ++ attachment.toList
  { messages := messages
    model := cfg.model
    maxTokens := cfg.maxTokens
    frequencyPenalty := cfg.frequencyPenalty
    presencePenalty := cfg.presencePenalty
    seed := cfg.seed
    stream := stream
    temperature := if caps.supportsTemperature then some cfg.temperature else none
    topP := if caps.supportsTemperature then some cfg.topP else none }

/-- `createResponsesRequest` (src/unnamed/part_000:718-747): same message
assembly; temperature and top-p are always set. -/
def createResponsesRequest (cfg : Config) (hist : List HistoryEntry)
    (attachment : Option Message) (stream : Bool) : ResponsesRequest :=
  let caps := GetCapabilities cfg.model
  let messages := (if caps.omitFirstSystemMsg then hist.drop 1 else hist).map
    fun e => e.message
  let messages := messages ++ attachment.toList
  { model := cfg.model
    input := messages
    maxOutputTokens := cfg.maxTokens
    reasoningEffort := cfg.effort
    stream := stream
    temperature := cfg.temperature
    topP := cfg.topP }

/-- Modelled from the spec: the field names present in the serialized
classic request body.  The `api` package with the JSON tags is not under
src/; per the spec, temperature and top-p are omitted from the body entirely
when they were not set. -/
def completionsBodyFields (r : CompletionsRequest) : List String :=
  ["messages", "model", "max_tokens", "frequency_penalty", "presence_penalty",
    "seed", "stream"] ++
  (match r.temperature with | some _ => ["temperature"] | none => []) ++
  (match r.topP with | some _ => ["top_p"] | none => [])

/-- Modelled from the spec: the field names present in the serialized
alternate (responses) request body; temperature and top-p are always
present. -/
def responsesBodyFields (_ : ResponsesRequest) : List String :=
  ["model", "input", "max_output_tokens", "reasoning", "stream",
    "temperature", "top_p"]

/-- Claim C7: for every configuration, history, optional attachment and
stream flag, the classic body carries temperature and top-p exactly when the
model supports temperature, and the alternate body always carries both. -/
theorem c7_temperature_asymmetry (cfg : Config) (hist : List HistoryEntry)
    (attachment : Option Message) (stream : Bool) :
    (("temperature" ∈ completionsBodyFields
        (createCompletionsRequest cfg hist attachment stream)) ↔
      (GetCapabilities cfg.model).supportsTemperature = true) ∧
    (("top_p" ∈ completionsBodyFields
        (createCompletionsRequest cfg hist attachment stream)) ↔
      (GetCapabilities cfg.model).supportsTemperature = true) ∧
    ("temperature" ∈ responsesBodyFields
      (createResponsesRequest cfg hist attachment stream)) ∧
    ("top_p" ∈ responsesBodyFields
      (createResponsesRequest cfg hist attachment stream)) := by
  cases hb : (GetCapabilities cfg.model).supportsTemperature <;>
    simp [completionsBodyFields, responsesBodyFields, createCompletionsRequest,
      createResponsesRequest, hb]

/-! ## Persistence-write failure handling (src/unnamed/part_000:154-187,
561-632, 915-927) -/

/-- The history store collaborator: only `Write` matters here. -/
structure Store where
  write : List HistoryEntry → Except String Unit

/-- The assistant turn `updateHistory` appends. -/
def assistantEntry (response : String) (now : Nat) : HistoryEntry :=
  ⟨{ role := AssistantRole, content := .text response }, now⟩

/-- The function turn `InjectMCPContext` appends (the name is the plugin
function, the content the formatted plugin response). -/
def functionEntry (fname formatted : String) (now : Nat) : HistoryEntry :=
  ⟨{ role := FunctionRole, content := .text formatted, name := fname }, now⟩

/-- `updateHistory` (src/unnamed/part_000:915-927): appends the assistant
turn and, unless history is omitted, calls `Write` DISCARDING its result
(Go `_ = c.historyStore.Write(...)`).  The second component is the error
the surrounding call (`Query` / `Stream`) observes: always `none`. -/
def updateHistory (store : Store) (omitHistory : Bool) (h : List HistoryEntry)
    (response : String) (now : Nat) : List HistoryEntry × Option String :=
  let h' := h ++ [assistantEntry response now]
  if omitHistory then (h', none)
  else
    let _ := store.write h'
    (h', none)

/-- The two turns `Transcribe` appends (src/unnamed/part_000:609-623). -/
def transcribeAppend (h : List HistoryEntry) (audioBase text : String)
    (now : Nat) : List HistoryEntry :=
  h ++ [⟨{ role := UserRole, content := .text ("[transcribe] " ++ audioBase) }, now⟩,
        assistantEntry text now]

/-- The history tail of `Transcribe` (src/unnamed/part_000:609-631): append
the user and assistant turns, truncate, then write best-effort (the write
error is discarded with `_ =`); the transcribed text is returned. -/
def transcribeUpdate (store : Store) (omitHistory : Bool) (cw : Nat)
    (h : List HistoryEntry) (audioBase text : String) (now : Nat) :
    Except String (List HistoryEntry × String) :=
  match truncateHistory cw (transcribeAppend h audioBase text now) with
  | .error e => .error e
  | .ok h2 =>
    if omitHistory then .ok (h2, text)
    else
      let _ := store.write h2
      .ok (h2, text)

/-- The history tail of `InjectMCPContext` (src/unnamed/part_000:175-187):
append the function turn, truncate, and RETURN the store write result —
a write failure is the call's error. -/
def injectMCPUpdate (store : Store) (cw : Nat) (h : List HistoryEntry)
    (fname formatted : String) (now : Nat) : Except String (List HistoryEntry) :=
  let h1 := h ++ [functionEntry fname formatted now]
  match truncateHistory cw h1 with
  | .error e => .error e
  | .ok h2 =>
    match store.write h2 with
    | .ok _ => .ok h2
    | .error e => .error e

/-- Claim C8: a history-store write failure after a normal assistant turn
(`updateHistory`, used by `Query` and `Stream`) or after a transcription
turn (`Transcribe`) is swallowed — the call observes no error for ANY store
— whereas a write failure at the end of the enrichment-injection path
(`InjectMCPContext`) is propagated as the call's error. -/
theorem c8_write_failure_asymmetry :
    (∀ (store : Store) (omitHistory : Bool) (h : List HistoryEntry)
        (response : String) (now : Nat),
      (updateHistory store omitHistory h response now).2 = none) ∧
    (∀ (store : Store) (cw : Nat) (h h2 : List HistoryEntry)
        (audioBase text : String) (now : Nat),
      truncateHistory cw (transcribeAppend h audioBase text now) = .ok h2 →
      transcribeUpdate store false cw h audioBase text now = .ok (h2, text)) ∧
    (∀ (store : Store) (cw : Nat) (h h2 : List HistoryEntry)
        (fname formatted e : String) (now : Nat),
      truncateHistory cw (h ++ [functionEntry fname formatted now]) = .ok h2 →
      store.write h2 = .error e →
      injectMCPUpdate store cw h fname formatted now = .error e) := by
  refine ⟨?_, ?_, ?_⟩
  · intro store omitHistory h response now
    unfold updateHistory
    cases omitHistory <;> simp
  · intro store cw h h2 audioBase text now htr
    unfold transcribeUpdate
    rw [htr]
    simp
  · intro store cw h h2 fname formatted e now htr hw
    unfold injectMCPUpdate
    dsimp only
    rw [htr]
    dsimp only
    rw [hw]

/-- A store whose write always fails, for the witness. -/
def failStore : Store := ⟨fun _ => .error "disk full"⟩

/-- Witness for claim C8: with a store that always fails to write, the
query/stream and transcription paths still succeed while the
enrichment-injection path surfaces the write error. -/
theorem c8_witness :
    (updateHistory failStore false [] "hi" 0).2 = none ∧
    transcribeUpdate failStore false 100 [] "a.mp3" "hello" 0 =
      .ok (transcribeAppend [] "a.mp3" "hello" 0, "hello") ∧
    injectMCPUpdate failStore 100 [] "fn" "data" 0 = .error "disk full" :=
  ⟨c8_write_failure_asymmetry.1 failStore false [] "hi" 0,
   c8_write_failure_asymmetry.2.1 failStore 100 [] (transcribeAppend [] "a.mp3" "hello" 0)
     "a.mp3" "hello" 0 (by rfl),
   c8_write_failure_asymmetry.2.2 failStore 100 []
     ([] ++ [functionEntry "fn" "data" 0]) "fn" "data" "disk full" 0 (by rfl) (by rfl)⟩

/-! ## Legacy stream decoding -/

/-- Modelled from the spec: the stream decoder implementation
(`RestCaller.ProcessResponse`) is not under src/ — only its unit test is —
so the classic ("legacy") grammar of §4.5 is modelled at the level of parsed
`data:` lines: a data line whose JSON optionally carries a delta content
string, the literal `data: [DONE]` line, a blank line, or a data line whose
JSON is malformed. -/
inductive LegacyLine where
  | blank
  | data (delta : Option String)
  | done
  | malformed (msg : String)
deriving DecidableEq, Repr

/-- Modelled from the spec (§4.5 classic grammar): each delta content is
appended to the accumulating buffer; lines with no delta content and blank
lines are ignored; the `[DONE]` line or the end of the stream triggers
exactly one terminal write of the whole buffer followed by exactly one
newline; a malformed JSON payload discards the buffer and writes a single
error line instead. -/
def processLegacy : List LegacyLine → String → String
  | [], buf => buf ++ "\n"
  | .done :: _, buf => buf ++ "\n"
  | .blank :: rest, buf => processLegacy rest buf
  | .data none :: rest, buf => processLegacy rest buf
  | .data (some s) :: rest, buf => processLegacy rest (buf ++ s)
  | .malformed msg :: _, _ => "Error: " ++ msg ++ "\n"

/-- The legacy test stream (src/unnamed/part_001:62-74): a role-only chunk,
three content chunks "a", " b", " c", a finish chunk with an empty delta,
then `data: [DONE]`. -/
def legacyStream : List LegacyLine :=
  [.blank, .data none, .blank, .data (some "a"), .blank, .data (some " b"),
   .blank, .data (some " c"), .blank, .data none, .blank, .done]

/-- Claim C6: feeding the legacy decoder deltas "a", " b", " c" followed by
`[DONE]` yields exactly the output "a b c" plus one newline: deltas are
appended in order, content-free lines are ignored, and the `[DONE]` line
triggers the single terminal write. -/
theorem c6_legacy_stream_output : processLegacy legacyStream "" = "a b c\n" := by
  rfl
